import Mathlib

/-!
Verification of `weasyprint/navigator.py` (the WeasyPrint navigator): a shallow
embedding of its box-tree link/anchor extraction, page production, HTML page
assembly, URL normalization and request dispatch, together with theorems about
the claimed properties. External collaborators (the HTML/CSS renderer, the PDF
writer, the WSGI host) are modelled as parameters; everything else is
translated directly from the source.
-/

/-- The on-page bounding box returned by `box.hit_area()`:
`(x, y, width, height)` in page-pixel coordinates. -/
structure Rect where
  x : Int
  y : Int
  w : Int
  h : Int
deriving DecidableEq, Repr

/-- The style record of a box node, as read by `find_links`:
`style.link` is either absent (Python `None`) or a pair `(type_, href)`;
`style.anchor` is either absent or a string (the empty string is falsy in
Python, so it is guarded below exactly as `if anchor:` does). -/
structure Style where
  link : Option (String × String)
  anchor : Option String
deriving DecidableEq, Repr

/-- A rendered layout box.  `text` models `boxes.TextBox`; `parent` models
`boxes.ParentBox` (the only kind with children); `atomic` models any other
box kind (e.g. a replaced box), which is neither a `TextBox` nor a
`ParentBox`.  Every box carries its style and its `hit_area()` result. -/
inductive Box where
  | text (style : Style) (hitArea : Rect) : Box
  | atomic (style : Style) (hitArea : Rect) : Box
  | parent (style : Style) (hitArea : Rect) (children : List Box) : Box

/-- The style of a box (`box.style`). -/
def Box.style : Box → Style
  | .text s _ => s
  | .atomic s _ => s
  | .parent s _ _ => s

/-- The hit area of a box (`box.hit_area()`). -/
def Box.hit_area : Box → Rect
  | .text _ r => r
  | .atomic _ r => r
  | .parent _ r _ => r

/-- `isinstance(box, boxes.TextBox)`. -/
def Box.isTextBox : Box → Bool
  | .text _ _ => true
  | _ => false

/-- `isinstance(box, boxes.ParentBox)`. -/
def Box.isParentBox : Box → Bool
  | .parent _ _ _ => true
  | _ => false

/-- A link record appended by `find_links`: `(href,) + box.hit_area()`. -/
structure LinkRecord where
  href : String
  x : Int
  y : Int
  w : Int
  h : Int
deriving DecidableEq, Repr

/-- An anchor record appended by `find_links`: `(anchor,) + box.hit_area()`. -/
structure AnchorRecord where
  name : String
  x : Int
  y : Int
  w : Int
  h : Int
deriving DecidableEq, Repr

/-- Python truthiness of `box.style.anchor` (`if anchor:`): present and
non-empty. -/
def anchorTruthy : Option String → Bool
  | none => false
  | some a => a ≠ ""

/-- The link record built at one node: the target is `"#" + href` when the
link type is `"internal"` and `"/view/" + href` otherwise, paired with the
node's hit area. -/
def mkLinkRecord (type_ href : String) (r : Rect) : LinkRecord :=
  ⟨if type_ = "internal" then "#" ++ href else "/view/" ++ href,
   r.x, r.y, r.w, r.h⟩

mutual

/-- `find_links(box, links, anchors)` from navigator.py: pre-order traversal
accumulating link records (only on non-`TextBox` nodes whose style has a
truthy `link`) and anchor records (on every node whose style has a truthy
`anchor`), then recursing into children when the box is a `ParentBox`. -/
def find_links (box : Box) (links : List LinkRecord)
    (anchors : List AnchorRecord) : List LinkRecord × List AnchorRecord :=
  let links :=
    match box.style.link with
    | some (type_, href) =>
        if box.isTextBox then links
        else links ++ [mkLinkRecord type_ href box.hit_area]
    | none => links
  let anchors :=
    match box.style.anchor with
    | some a => if a = "" then anchors else anchors ++ [⟨a, box.hit_area.x,
        box.hit_area.y, box.hit_area.w, box.hit_area.h⟩]
    | none => anchors
  match box with
  | .parent _ _ children => find_links_children children links anchors
  | _ => (links, anchors)

/-- The `for child in box.children: find_links(child, links, anchors)` loop:
the accumulators are threaded through the children in order. -/
def find_links_children (bs : List Box) (links : List LinkRecord)
    (anchors : List AnchorRecord) : List LinkRecord × List AnchorRecord :=
  match bs with
  | [] => (links, anchors)
  | b :: rest =>
      find_links_children rest (find_links b links anchors).1
        (find_links b links anchors).2

end

mutual

/-- The number of nodes of a box tree whose anchor style is present (truthy),
the measure the anchor-extraction count is compared against. -/
def countAnchors : Box → Nat
  | .text s _ => if anchorTruthy s.anchor then 1 else 0
  | .atomic s _ => if anchorTruthy s.anchor then 1 else 0
  | .parent s _ children =>
      (if anchorTruthy s.anchor then 1 else 0) + countAnchorsList children

/-- `countAnchors` summed over a list of box trees. -/
def countAnchorsList : List Box → Nat
  | [] => 0
  | b :: rest => countAnchors b + countAnchorsList rest

end

/-- `itertools.izip`: pairs two sequences element-wise, stopping at the end of
the shorter one. -/
def izip (xs : List α) (ys : List β) : List (α × β) := xs.zip ys

/-- The standard base64 alphabet. -/
def b64alphabet : List Char :=
  "ABCDEFGHIJKLMNOPQRSTUVWXYZabcdefghijklmnopqrstuvwxyz0123456789+/".data

/-- The base64 digit for a 6-bit value. -/
def b64char (n : Nat) : Char := b64alphabet.getD n 'A'

/-- Base64 encoding of a byte sequence (bytes as naturals below 256),
three bytes to four digits with `=` padding. -/
def b64encode : List Nat → List Char
  | [] => []
  | [a] => [b64char (a / 4), b64char (a % 4 * 16), '=', '=']
  | [a, b] => [b64char (a / 4), b64char (a % 4 * 16 + b / 16),
               b64char (b % 16 * 4), '=']
  | a :: b :: c :: rest =>
      [b64char (a / 4), b64char (a % 4 * 16 + b / 16),
       b64char (b % 16 * 4 + c / 64), b64char (c % 64)] ++ b64encode rest

/-- Splits a byte sequence into chunks of at most 57 bytes (the chunk size
`base64.encodestring` uses, 57 bytes to one 76-digit output line).  The fuel
argument is an upper bound on the number of chunks; `l.length` suffices since
every step consumes at least one byte. -/
def toChunks57 : Nat → List Nat → List (List Nat)
  | _, [] => []
  | 0, _ => []
  | fuel + 1, l => l.take 57 :: toChunks57 fuel (l.drop 57)

/-- `base64.encodestring(bytes)`: the base64 encoding of each 57-byte chunk
followed by a newline. -/
def encodestring (bytes : List Nat) : List Char :=
  ((toChunks57 bytes.length bytes).map (fun ch => b64encode ch ++ ['\n'])).flatten

/-- `.replace('\n', '')`: removes every newline character. -/
def removeNewlines (l : List Char) : List Char := l.filter (fun c => c ≠ '\n')

/-- One entry of the renderer's `png_pages` enumeration:
`(width, height, png_bytes)`. -/
structure RenderedPage where
  width : Int
  height : Int
  png_bytes : List Nat
deriving DecidableEq, Repr

/-- One value yielded by `get_pages`:
`(width, height, data_url, links, anchors)`. -/
structure Page where
  width : Int
  height : Int
  data_url : String
  links : List LinkRecord
  anchors : List AnchorRecord
deriving DecidableEq, Repr

/-- The print stylesheet value: `CSS(string='…')` is modelled by the CSS
source string it wraps. -/
structure CSS where
  string : String
deriving DecidableEq, Repr

/-- The module-level constant `STYLESHEET = CSS(string='\n   :root { font-size: 10pt }\n')`. -/
def STYLESHEET : CSS := ⟨"\n   :root \x7b font-size: 10pt \x7d\n"⟩

/-- The stylesheet list `[STYLESHEET]` that `get_pages` passes to
`html.get_png_pages` (navigator.py line 59). -/
def view_stylesheets : List CSS := [STYLESHEET]

/-- The external renderer handle `html = HTML(url)`: `get_png_pages`, given a
stylesheet list, returns the document's page box trees (`document.pages`)
together with the raster enumeration (`png_pages`); `base_url` is the
document's resolved base URL.  Both are opaque external behaviour, so they
are fields. -/
structure HTMLDocument where
  base_url : String
  get_png_pages : List CSS → List Box × List RenderedPage

/-- The body of `get_pages`'s loop, given the two enumerations already
obtained from the renderer: zip them with `izip` (truncating at the shorter),
extract links and anchors from each page box tree, and build the
`data:image/png;base64,` URL from the newline-stripped `encodestring`
output. -/
def get_pages_core (document_pages : List Box) (png_pages : List RenderedPage) :
    List Page :=
  (izip document_pages png_pages).map (fun pr =>
    let la := find_links pr.1 [] []
    let data_url := "data:image/png;base64," ++
      String.mk (removeNewlines (encodestring pr.2.png_bytes))
    ⟨pr.2.width, pr.2.height, data_url, la.1, la.2⟩)

/-- `get_pages(html)`: calls the renderer once with `[STYLESHEET]` and yields
one `Page` per zipped pair. -/
def get_pages (html : HTMLDocument) : List Page :=
  let dp := html.get_png_pages view_stylesheets
  get_pages_core dp.1 dp.2

example :
    get_pages_core [.atomic ⟨none, some "a"⟩ ⟨1, 2, 3, 4⟩] [⟨8, 9, [77, 97, 110]⟩] =
    [⟨8, 9, "data:image/png;base64,TWFu", [], [⟨"a", 1, 2, 3, 4⟩]⟩] := by decide

/-- The fixed first element of `parts` in `render_template`: document head,
inline styles, the body `onload` autofocus hook and the navigation form up to
`value="`. -/
def template_head : String := "<!doctype html>\n<meta charset=utf-8>\n<title>WeasyPrint Navigator</title>\n<style>\n  form \x7b position: fixed; z-index: 1; top: 8px; left: 16px; right: 0; \x7d\n  input \x7b font: 24px/30px sans-serif \x7d\n  input:not([type]) \x7b background: rgba(255, 255, 255, .9); border-width: 2px;\n                      border-radius: 6px; padding: 0 3px \x7d\n  input:not([type]):focus \x7b outline: none \x7d\n  body \x7b margin-top: 0; padding-top: 50px \x7d\n  section \x7b box-shadow: 0 0 10px 2px #aaa; margin: 25px; position: relative \x7d\n  section a \x7b position: absolute; display: block \x7d\n  section a[href]:hover, a[href]:focus \x7b outline: 1px dotted \x7d\n</style>\n<body onload=\"var u=document.forms[0].url; u.value || u.focus()\">\n<form action=\"/\" onsubmit=\"\n  window.location.href = \x27/view/\x27 + this.url.value; return false;\">\n<input name=url style=\"width: 80%\" placeholder=\"Enter an URL to start\"\n  value=\""

/-- The overlay link element written for one `LinkRecord`:
`'  <a style="left: {0}px; top: {1}px; width: {2}px; height: {3}px" href="{4}"></a>\n'`
formatted with `(pos_x, pos_y, width, height, href)`. -/
def link_element (r : LinkRecord) : String :=
  "  <a style=\"left: " ++ toString r.x ++ "px; top: " ++ toString r.y ++
  "px; width: " ++ toString r.w ++ "px; height: " ++ toString r.h ++
  "px\" href=\"" ++ r.href ++ "\"></a>\n"

/-- The named-anchor element written for one `AnchorRecord`:
`'  <a style="left: {0}px; top: {1}px;" name="{2}"></a>\n'` formatted with
`(pos_x, pos_y - 60, anchor)` — 60 is subtracted from `pos_y` so the anchor
target lands below the fixed address bar. -/
def anchor_element (a : AnchorRecord) : String :=
  "  <a style=\"left: " ++ toString a.x ++ "px; top: " ++ toString (a.y - 60) ++
  "px;\" name=\"" ++ a.name ++ "\"></a>\n"

/-- The parts written for one page of the loop in `render_template`: the
`<section>` opening with the page's dimensions and inline `<img>`, one overlay
element per link, one named-anchor element per anchor, then `</section>`. -/
def pageSection (p : Page) : List String :=
  ["<section style=\"width: " ++ toString p.width ++ "px; height: " ++
   toString p.height ++ "px\">\n  <img src=\"" ++ p.data_url ++ "\">\n"]
  ++ p.links.map link_element
  ++ p.anchors.map anchor_element
  ++ ["</section>\n"]

/-- The `parts` list accumulated by `render_template(url)`.  The external
calls are factored out: `url` here is already `HTML(url).base_url` when a URL
was given (`None` stays `None`), and `pages` is the sequence produced by
`get_pages(html)`, which is consumed only when a URL is present. -/
def render_template_parts (url : Option String) (pages : List Page) :
    List String :=
  [template_head]
  ++ (match url with | some u => [u] | none => [])
  ++ ["\" />\n<input type=submit value=Go />\n"]
  ++ (match url with
      | some u => ["<a href=\"/pdf/", u, "\">PDF</a>\n"]
      | none => [])
  ++ ["</form>\n"]
  ++ (match url with
      | some _ => (pages.map pageSection).flatten
      | none => [])

/-- `''.join(parts)`: the assembled HTML document as a string. -/
def render_template_string (url : Option String) (pages : List Page) : String :=
  String.join (render_template_parts url pages)

/-- `render_template`'s return value: `''.join(parts).encode('utf8')`. -/
def render_template (url : Option String) (pages : List Page) : ByteArray :=
  (render_template_string url pages).toUTF8

/-- Membership test for one character class of a URL scheme tail:
letters, digits, `+`, `-` or `.`. -/
def schemeTailChar (c : Char) : Bool :=
  c.isAlpha || c.isDigit || c = '+' || c = '-' || c = '.'

/-- Scans the rest of a candidate scheme: succeeds on reaching `:`, keeps
going over scheme characters, fails otherwise. -/
def schemeTail : List Char → Bool
  | [] => false
  | c :: rest => if c = ':' then true else schemeTailChar c && schemeTail rest

/-- Modelled from the spec: `url_is_absolute` is imported from
`weasyprint.urls`, whose source is not part of this snapshot; per the spec a
string is already an absolute URL exactly when it has a recognized scheme —
a letter followed by letters, digits, `+`, `-` or `.`, terminated by `:`. -/
def url_is_absolute (s : String) : Bool :=
  match s.data with
  | [] => false
  | c :: rest => c.isAlpha && schemeTail rest

/-- `normalize_url(url, query_string=None)` from navigator.py: falsy (absent
or empty) input gives `None`; otherwise a truthy query string is appended
after `?`, and `http://` is prefixed unless the string already has a
scheme. -/
def normalize_url (url : Option String) (query_string : Option String) :
    Option String :=
  match url with
  | none => none
  | some u =>
      if u = "" then none
      else
        let u := match query_string with
          | some q => if q = "" then u else u ++ "?" ++ q
          | none => u
        some (if url_is_absolute u then u else "http://" ++ u)

/-- `str.startswith`, on code points. -/
def startswith (s pre : String) : Bool := pre.data.isPrefixOf s.data

/-- Python slicing `s[n:]`, on code points. -/
def strdrop (s : String) (n : Nat) : String := ⟨s.data.drop n⟩

/-- The stylesheet list `[STYLESHEET]` that the `/pdf/` branch of `app`
passes to `HTML(url=url).write_pdf` (navigator.py line 146). -/
def pdf_stylesheets : List CSS := [STYLESHEET]

/-- The externally visible action `app` dispatches to for a request: which
branch is taken, with the URL it computed and (for PDF export) the
stylesheet list handed to the external `write_pdf`. -/
inductive AppAction where
  | favicon : AppAction
  | pdf (url : Option String) (stylesheets : List CSS) : AppAction
  | view (url : Option String) : AppAction
  | home (url : Option String) : AppAction
  | notFound : AppAction
deriving DecidableEq, Repr

/-- The dispatch logic of `app(environ, start_response)`.  `path` is
`environ['PATH_INFO']` and `query_string` is `environ.get('QUERY_STRING')`;
`form_url` models `parse_qs(...).get('url', [''])[0]` for the `/` branch
(`parse_qs` is the external stdlib query parser), i.e. the form's `url`
parameter with default `''`. -/
def app (path : String) (query_string : Option String) (form_url : String) :
    AppAction :=
  if path = "/favicon.ico" then .favicon
  else if startswith path "/pdf/" ∧ 5 < path.length then
    .pdf (normalize_url (some (strdrop path 5)) query_string) pdf_stylesheets
  else if startswith path "/view/" then
    .view (normalize_url (some (strdrop path 6)) query_string)
  else if path = "/" then
    .home (normalize_url (some form_url) none)
  else .notFound

/-- Substring search: does `pat` occur as a contiguous run in the list? -/
def containsSub (pat : List Char) : List Char → Bool
  | [] => pat.isEmpty
  | c :: rest => pat.isPrefixOf (c :: rest) || containsSub pat rest

/-- Substring search on strings. -/
def strContains (s pat : String) : Bool := containsSub pat.data s.data

/-- The two target forms a link record appended by `find_links` can have:
`"#" + fragment` or `"/view/" + href`. -/
def LinkTargetForms (r : LinkRecord) : Prop :=
  (∃ f, r.href = "#" ++ f) ∨ (∃ h, r.href = "/view/" ++ h)

/-- A renderer handle whose two enumerations have different lengths (one page
box tree, two raster pages): the concrete input refuting fail-fast
behaviour of `get_pages` on misaligned enumerations. -/
def mismatched_renderer : HTMLDocument :=
  ⟨"http://m.example",
   fun _ => ([Box.atomic ⟨none, none⟩ ⟨0, 0, 0, 0⟩], [⟨1, 1, []⟩, ⟨2, 2, []⟩])⟩

theorem find_links_textbox_links (b : Box) (hb : b.isTextBox = true)
    (l : List LinkRecord) (a : List AnchorRecord) :
    (find_links b l a).1 = l := by
  cases b with
  | text s r =>
      cases hl : s.link with
      | none => simp [find_links, Box.style, Box.isTextBox, hl]
      | some p =>
          obtain ⟨t, h⟩ := p
          simp [find_links, Box.style, Box.isTextBox, hl]
  | atomic s r => simp [Box.isTextBox] at hb
  | parent s r c => simp [Box.isTextBox] at hb

theorem find_links_children_text_links (bs : List Box) :
    ∀ l a, (∀ b ∈ bs, b.isTextBox = true) → (find_links_children bs l a).1 = l := by
  induction bs with
  | nil => intro l a _; simp [find_links_children]
  | cons b rest ih =>
      intro l a hbs
      simp only [find_links_children]
      rw [find_links_textbox_links b (hbs b (List.mem_cons_self b rest)) l a]
      exact ih _ _ (fun b' h' => hbs b' (List.mem_cons_of_mem _ h'))

mutual

theorem find_links_anchors_length (box : Box) :
    ∀ l a, ((find_links box l a).2).length = a.length + countAnchors box := by
  cases box with
  | text s r =>
      intro l a
      cases hl : s.link with
      | none =>
          cases ha : s.anchor with
          | none => simp [find_links, countAnchors, Box.style, hl, ha, anchorTruthy]
          | some nm =>
              by_cases hnm : nm = "" <;>
                simp [find_links, countAnchors, Box.style, hl, ha, anchorTruthy, hnm]
      | some p =>
          obtain ⟨t, h⟩ := p
          cases ha : s.anchor with
          | none => simp [find_links, countAnchors, Box.style, hl, ha, anchorTruthy]
          | some nm =>
              by_cases hnm : nm = "" <;>
                simp [find_links, countAnchors, Box.style, hl, ha, anchorTruthy, hnm]
  | atomic s r =>
      intro l a
      cases hl : s.link with
      | none =>
          cases ha : s.anchor with
          | none => simp [find_links, countAnchors, Box.style, hl, ha, anchorTruthy]
          | some nm =>
              by_cases hnm : nm = "" <;>
                simp [find_links, countAnchors, Box.style, hl, ha, anchorTruthy, hnm]
      | some p =>
          obtain ⟨t, h⟩ := p
          cases ha : s.anchor with
          | none => simp [find_links, countAnchors, Box.style, hl, ha, anchorTruthy]
          | some nm =>
              by_cases hnm : nm = "" <;>
                simp [find_links, countAnchors, Box.style, hl, ha, anchorTruthy, hnm]
  | parent s r children =>
      intro l a
      have hrec := find_links_children_anchors_length children
      cases hl : s.link with
      | none =>
          cases ha : s.anchor with
          | none =>
              simp [find_links, countAnchors, Box.style, Box.isTextBox, hl, ha,
                anchorTruthy, hrec]
          | some nm =>
              by_cases hnm : nm = ""
              · simp [find_links, countAnchors, Box.style, Box.isTextBox, hl,
                  ha, anchorTruthy, hnm, hrec]
              · simp [find_links, countAnchors, Box.style, Box.isTextBox, hl,
                  ha, anchorTruthy, hnm, hrec]
                omega
      | some p =>
          obtain ⟨t, h⟩ := p
          cases ha : s.anchor with
          | none =>
              simp [find_links, countAnchors, Box.style, Box.isTextBox, hl, ha,
                anchorTruthy, hrec]
          | some nm =>
              by_cases hnm : nm = ""
              · simp [find_links, countAnchors, Box.style, Box.isTextBox, hl,
                  ha, anchorTruthy, hnm, hrec]
              · simp [find_links, countAnchors, Box.style, Box.isTextBox, hl,
                  ha, anchorTruthy, hnm, hrec]
                omega

theorem find_links_children_anchors_length (bs : List Box) :
    ∀ l a, ((find_links_children bs l a).2).length = a.length + countAnchorsList bs := by
  cases bs with
  | nil => intro l a; simp [find_links_children, countAnchorsList]
  | cons b rest =>
      intro l a
      simp only [find_links_children, countAnchorsList]
      rw [find_links_children_anchors_length rest, find_links_anchors_length b]
      omega

end

theorem mkLinkRecord_forms (t h : String) (rect : Rect) :
    LinkTargetForms (mkLinkRecord t h rect) := by
  unfold LinkTargetForms mkLinkRecord
  by_cases ht : t = "internal" <;> simp [ht]

mutual

theorem find_links_links_mem (box : Box) :
    ∀ l a r, r ∈ (find_links box l a).1 → r ∈ l ∨ LinkTargetForms r := by
  cases box with
  | text s rect =>
      intro l a r hr
      cases hl : s.link with
      | none => simp [find_links, Box.style, hl] at hr; exact Or.inl hr
      | some p =>
          obtain ⟨t, h⟩ := p
          simp [find_links, Box.style, Box.isTextBox, hl] at hr
          exact Or.inl hr
  | atomic s rect =>
      intro l a r hr
      cases hl : s.link with
      | none => simp [find_links, Box.style, hl] at hr; exact Or.inl hr
      | some p =>
          obtain ⟨t, h⟩ := p
          simp [find_links, Box.style, Box.isTextBox, hl] at hr
          rcases hr with hr | hr
          · exact Or.inl hr
          · exact Or.inr (hr ▸ mkLinkRecord_forms t h _)
  | parent s rect children =>
      intro l a r hr
      have hrec := find_links_children_links_mem children
      cases hl : s.link with
      | none =>
          simp only [find_links, Box.style, hl] at hr
          exact hrec _ _ r hr
      | some p =>
          obtain ⟨t, h⟩ := p
          simp only [find_links, Box.style, Box.isTextBox, hl] at hr
          rcases hrec _ _ r hr with hr' | hr'
          · rcases List.mem_append.mp hr' with hl' | hl'
            · exact Or.inl hl'
            · rcases List.mem_singleton.mp hl' with rfl
              exact Or.inr (mkLinkRecord_forms t h _)
          · exact Or.inr hr'

theorem find_links_children_links_mem (bs : List Box) :
    ∀ l a r, r ∈ (find_links_children bs l a).1 → r ∈ l ∨ LinkTargetForms r := by
  cases bs with
  | nil =>
      intro l a r hr
      simp [find_links_children] at hr
      exact Or.inl hr
  | cons b rest =>
      intro l a r hr
      simp only [find_links_children] at hr
      rcases find_links_children_links_mem rest _ _ r hr with hr' | hr'
      · exact find_links_links_mem b _ _ r hr'
      · exact Or.inr hr'

end

theorem hash_ne_view (f h : String) : "#" ++ f ≠ "/view/" ++ h := by
  intro e
  have e' : ("#" ++ f).data = ("/view/" ++ h).data := by rw [e]
  rw [String.data_append, String.data_append] at e'
  have h1 : "#".data = ['#'] := rfl
  have h2 : "/view/".data = ['/', 'v', 'i', 'e', 'w', '/'] := rfl
  rw [h1, h2] at e'
  have : '#' = '/' := by injection e'
  exact absurd this (by decide)

theorem data_foldl_append (l : List String) :
    ∀ init : String, (l.foldl (· ++ ·) init).data =
      init.data ++ (l.map String.data).flatten := by
  induction l with
  | nil => intro init; simp
  | cons s rest ih =>
      intro init
      simp only [List.foldl, List.map, List.flatten]
      rw [ih (init ++ s), String.data_append, List.append_assoc]

theorem string_data_join (l : List String) :
    (String.join l).data = (l.map String.data).flatten := by
  simp

theorem mem_join_infix {s : String} {l : List String} (h : s ∈ l) :
    s.data <:+: (String.join l).data := by
  rw [string_data_join]
  exact List.infix_of_mem_flatten (List.mem_map_of_mem _ h)

/-- Claim C1, counterexample: with one page box tree and two raster pages
(lengths 1 ≠ 2), `get_pages` does not fail and does not return no pages — it
returns a non-empty truncated sequence of one page. -/
theorem get_pages_mismatch_counterexample :
    (mismatched_renderer.get_png_pages view_stylesheets).1.length = 1 ∧
    (mismatched_renderer.get_png_pages view_stylesheets).2.length = 2 ∧
    get_pages mismatched_renderer = [⟨1, 1, "data:image/png;base64,", [], []⟩] :=
  ⟨rfl, rfl, by decide⟩

/-- Claim C1, amended: `get_pages` pairs the page-dimension enumeration and
the box-tree enumeration with `izip`, which silently truncates to the shorter
sequence — the number of pages produced is the minimum of the two lengths,
with no fail-fast check. -/
theorem get_pages_length_truncates (html : HTMLDocument) :
    (get_pages html).length =
      min (html.get_png_pages view_stylesheets).1.length
        (html.get_png_pages view_stylesheets).2.length := by
  simp [get_pages, get_pages_core, izip]

/-- Claim C3: for every box tree, the number of anchor records produced by
`find_links` equals the number of nodes whose anchor style is present
(truthy), regardless of depth or shape. -/
theorem find_links_anchor_count (box : Box) :
    ((find_links box [] []).2).length = countAnchors box := by
  simpa using find_links_anchors_length box [] []

/-- Claim C5: `normalize_url` maps empty input to `None`, appends a present
query string after `?`, and prefixes `http://` exactly when the resulting
string has no recognized scheme; the four concrete cases of the spec hold. -/
theorem normalize_url_spec :
    normalize_url (some "") none = none ∧
    normalize_url (some "example.com") none = some "http://example.com" ∧
    normalize_url (some "http://x.com") (some "a=1") = some "http://x.com?a=1" ∧
    normalize_url (some "https://y.com") none = some "https://y.com" ∧
    (∀ u q : String, u ≠ "" → q ≠ "" →
      (url_is_absolute (u ++ "?" ++ q) = true →
        normalize_url (some u) (some q) = some (u ++ "?" ++ q)) ∧
      (url_is_absolute (u ++ "?" ++ q) = false →
        normalize_url (some u) (some q) = some ("http://" ++ (u ++ "?" ++ q)))) ∧
    (∀ u : String, u ≠ "" →
      (url_is_absolute u = true → normalize_url (some u) none = some u) ∧
      (url_is_absolute u = false →
        normalize_url (some u) none = some ("http://" ++ u))) := by
  refine ⟨by decide, by decide, by decide, by decide, ?_, ?_⟩
  · intro u q hu hq
    constructor <;> intro habs <;> simp [normalize_url, hu, hq, habs]
  · intro u hu
    constructor <;> intro habs <;> simp [normalize_url, hu, habs]

/-- Witness for claim C5's general rule at a concrete input: a non-empty URL
with a non-empty query string and no scheme gets the query appended and
`http://` prefixed. -/
theorem normalize_url_spec_witness :
    normalize_url (some "foo.com") (some "b=2") =
      some ("http://" ++ ("foo.com" ++ "?" ++ "b=2")) :=
  (normalize_url_spec.2.2.2.2.1 "foo.com" "b=2" (by decide) (by decide)).2
    (by decide)

/-- Claim C10: for every query string, present or not, `normalize_url`
applied to an empty or absent URL returns `None` — the query string is
discarded. -/
theorem normalize_url_empty_discards_query (q : Option String) :
    normalize_url (some "") q = none ∧ normalize_url none q = none :=
  ⟨by simp [normalize_url], rfl⟩

set_option maxRecDepth 100000 in
/-- Claim C8: with no URL, `render_template` produces the UTF-8 encoding of a
document that contains the navigation form (with empty value and the
autofocus `onload` hook) and no page section, no page image and no PDF
link. -/
theorem render_template_no_url_form_only :
    render_template none [] = (render_template_string none []).toUTF8 ∧
    strContains (render_template_string none []) "<form action=\"/\"" = true ∧
    strContains (render_template_string none []) "value=\"\" />" = true ∧
    strContains (render_template_string none []) "u.value || u.focus()" = true ∧
    strContains (render_template_string none []) "<section" = false ∧
    strContains (render_template_string none []) "<img" = false ∧
    strContains (render_template_string none []) "/pdf/" = false :=
  ⟨rfl, by decide, by decide, by decide, by decide, by decide, by decide⟩

/-- Claim C2: a container whose style has a link produces exactly one link
record even when all its children are text leaves (which inherit the link
style), and in general a text-bearing leaf never contributes a link
record. -/
theorem find_links_container_link_once (s : Style) (rect : Rect)
    (children : List Box) (b : Box) (l : List LinkRecord)
    (a : List AnchorRecord) (hl : s.link.isSome = true)
    (hc : ∀ c ∈ children, c.isTextBox = true) (hb : b.isTextBox = true) :
    ((find_links (.parent s rect children) [] []).1).length = 1 ∧
    (find_links b l a).1 = l := by
  constructor
  · obtain ⟨⟨t, h⟩, hp⟩ : ∃ p, s.link = some p := Option.isSome_iff_exists.mp hl
    simp only [find_links, Box.style, Box.isTextBox, Box.hit_area, hp]
    rw [find_links_children_text_links children _ _ hc]
    simp
  · exact find_links_textbox_links b hb l a

/-- Witness for claim C2: a container with an internal link over two text
leaves that inherit the same link yields one link record; a text leaf with a
link style leaves the links accumulator unchanged. -/
theorem find_links_container_link_once_witness :
    ((find_links (.parent ⟨some ("internal", "sec1"), none⟩ ⟨10, 20, 100, 30⟩
        [.text ⟨some ("internal", "sec1"), none⟩ ⟨10, 20, 40, 30⟩,
         .text ⟨some ("internal", "sec1"), none⟩ ⟨10, 50, 40, 30⟩]) [] []).1).length = 1 ∧
    (find_links (.text ⟨some ("internal", "sec1"), none⟩ ⟨10, 20, 40, 30⟩)
        [⟨"#x", 0, 0, 1, 1⟩] [⟨"a", 0, 0, 1, 1⟩]).1 = [⟨"#x", 0, 0, 1, 1⟩] :=
  find_links_container_link_once _ _ _ _ _ _ (by decide) (by decide) (by decide)

/-- Claim C4: every link record produced by `find_links` has a target of
exactly one of the two forms `"#" + fragment` or `"/view/" + href` — never
both, and never anything else. -/
theorem find_links_link_target_forms (box : Box) (r : LinkRecord)
    (hr : r ∈ (find_links box [] []).1) :
    ((∃ f, r.href = "#" ++ f) ∧ ¬∃ h, r.href = "/view/" ++ h) ∨
    ((∃ h, r.href = "/view/" ++ h) ∧ ¬∃ f, r.href = "#" ++ f) := by
  rcases find_links_links_mem box [] [] r hr with h0 | hforms
  · simp at h0
  · rcases hforms with ⟨f, hf⟩ | ⟨h, hh⟩
    · exact Or.inl ⟨⟨f, hf⟩, fun ⟨h', hh'⟩ => hash_ne_view f h' (hf.symm.trans hh')⟩
    · exact Or.inr ⟨⟨h, hh⟩, fun ⟨f', hf'⟩ => hash_ne_view f' h (hf'.symm.trans hh)⟩

/-- Witness for claim C4: the record extracted from a box with an internal
link to `sec1` has the `"#" + fragment` form and not the `"/view/"` form. -/
theorem find_links_link_target_forms_witness :
    ((∃ f, (⟨"#sec1", 10, 20, 100, 30⟩ : LinkRecord).href = "#" ++ f) ∧
      ¬∃ h, (⟨"#sec1", 10, 20, 100, 30⟩ : LinkRecord).href = "/view/" ++ h) ∨
    ((∃ h, (⟨"#sec1", 10, 20, 100, 30⟩ : LinkRecord).href = "/view/" ++ h) ∧
      ¬∃ f, (⟨"#sec1", 10, 20, 100, 30⟩ : LinkRecord).href = "#" ++ f) :=
  find_links_link_target_forms
    (.atomic ⟨some ("internal", "sec1"), none⟩ ⟨10, 20, 100, 30⟩) _ (by decide)

/-- Claim C6: for every anchor record on every page, the assembled document
contains the named-anchor element for it, and that element is positioned at
left `x` and top `y - 60` — the fixed 60-pixel offset. -/
theorem render_template_anchor_offset (url : String) (pages : List Page)
    (p : Page) (a : AnchorRecord) (hp : p ∈ pages) (ha : a ∈ p.anchors) :
    (anchor_element a).data <:+: (render_template_string (some url) pages).data ∧
    anchor_element a = "  <a style=\"left: " ++ toString a.x ++ "px; top: " ++
      toString (a.y - 60) ++ "px;\" name=\"" ++ a.name ++ "\"></a>\n" := by
  refine ⟨?_, rfl⟩
  have h1 : anchor_element a ∈ pageSection p := by
    unfold pageSection
    exact List.mem_append_left _ (List.mem_append_right _
      (List.mem_map_of_mem _ ha))
  have h2 : anchor_element a ∈ (pages.map pageSection).flatten :=
    List.mem_flatten.mpr ⟨pageSection p, List.mem_map_of_mem _ hp, h1⟩
  have h3 : anchor_element a ∈ render_template_parts (some url) pages := by
    unfold render_template_parts
    exact List.mem_append_right _ h2
  unfold render_template_string
  exact mem_join_infix h3

/-- Witness for claim C6: an anchor record at `y = 200` yields an element at
`top: 140px` inside the assembled document. -/
theorem render_template_anchor_offset_witness :
    (anchor_element ⟨"sec1", 0, 200, 50, 10⟩).data <:+:
      (render_template_string (some "http://e.com")
        [⟨100, 300, "data:image/png;base64,", [],
          [⟨"sec1", 0, 200, 50, 10⟩]⟩]).data ∧
    anchor_element ⟨"sec1", 0, 200, 50, 10⟩ =
      "  <a style=\"left: 0px; top: 140px;\" name=\"sec1\"></a>\n" :=
  render_template_anchor_offset "http://e.com"
    [⟨100, 300, "data:image/png;base64,", [], [⟨"sec1", 0, 200, 50, 10⟩]⟩]
    ⟨100, 300, "data:image/png;base64,", [], [⟨"sec1", 0, 200, 50, 10⟩]⟩
    ⟨"sec1", 0, 200, 50, 10⟩ (by decide) (by decide)

/-- Claim C7: every request the dispatcher sends down the PDF path carries
the same stylesheet list that `get_pages` passes to the page-view rendering
path — the one process-wide constant `[STYLESHEET]`, whose CSS sets the root
font size to 10pt. -/
theorem stylesheet_shared_between_paths :
    (∀ (path : String) (q : Option String) (fu : String) (url : Option String)
        (ss : List CSS), app path q fu = .pdf url ss → ss = view_stylesheets) ∧
    view_stylesheets = pdf_stylesheets ∧
    view_stylesheets = [STYLESHEET] ∧
    STYLESHEET.string = "\n   :root \x7b font-size: 10pt \x7d\n" := by
  refine ⟨?_, rfl, rfl, rfl⟩
  intro path q fu url ss h
  unfold app at h
  split at h
  · exact absurd h (by simp)
  · split at h
    · injection h with h1 h2
      rw [← h2]; rfl
    · split at h
      · exact absurd h (by simp)
      · split at h
        · exact absurd h (by simp)
        · exact absurd h (by simp)

/-- Witness for claim C7: a concrete `/pdf/` request dispatches with exactly
the view path's stylesheet list. -/
theorem stylesheet_shared_between_paths_witness :
    [STYLESHEET] = view_stylesheets :=
  stylesheet_shared_between_paths.1 "/pdf/x.org" none "" (some "http://x.org")
    [STYLESHEET] (by decide)

theorem get_pages_core_index (dp : List Box) :
    ∀ (pp : List RenderedPage) (i : Nat) (page : Page) (rp : RenderedPage),
      (get_pages_core dp pp)[i]? = some page → pp[i]? = some rp →
      page.data_url = "data:image/png;base64," ++
        String.mk (removeNewlines (encodestring rp.png_bytes)) := by
  induction dp with
  | nil =>
      intro pp i page rp hpage hrp
      simp [get_pages_core, izip] at hpage
  | cons b rest ih =>
      intro pp i page rp hpage hrp
      cases pp with
      | nil => simp [get_pages_core, izip] at hpage
      | cons q qs =>
          cases i with
          | zero =>
              simp [get_pages_core, izip] at hpage
              simp at hrp
              rw [← hpage, ← hrp]
          | succ n =>
              simp only [get_pages_core, izip, List.zip_cons_cons, List.map,
                List.getElem?_cons_succ] at hpage
              simp only [List.getElem?_cons_succ] at hrp
              exact ih qs n page rp
                (by simpa [get_pages_core, izip] using hpage) hrp

/-- Claim C9: the page produced by `get_pages` at position `i` carries a data
URL that is `data:image/png;base64,` followed by the newline-stripped base64
encoding of the raster bytes of the renderer's entry at the same position
`i`, and the whole URL contains no newline. -/
theorem get_pages_data_url_base64 (dp : List Box) (pp : List RenderedPage)
    (i : Nat) (page : Page) (rp : RenderedPage)
    (hpage : (get_pages_core dp pp)[i]? = some page)
    (hrp : pp[i]? = some rp) :
    page.data_url = "data:image/png;base64," ++
      String.mk (removeNewlines (encodestring rp.png_bytes)) ∧
    ∀ c ∈ page.data_url.data, c ≠ '\n' := by
  have hurl := get_pages_core_index dp pp i page rp hpage hrp
  refine ⟨hurl, ?_⟩
  intro c hc
  rw [hurl, String.data_append] at hc
  have hpre : ∀ x ∈ "data:image/png;base64,".data, x ≠ '\n' := by decide
  rcases List.mem_append.mp hc with h1 | h1
  · exact hpre c h1
  · simpa using List.of_mem_filter h1

/-- Witness for claim C9: the page at position 0, generated from the raster
entry at position 0 with bytes `Man`, has data URL
`data:image/png;base64,TWFu` and no newline in it. -/
theorem get_pages_data_url_base64_witness :
    (⟨8, 9, "data:image/png;base64,TWFu", [],
        [⟨"a", 1, 2, 3, 4⟩]⟩ : Page).data_url =
      "data:image/png;base64," ++
        String.mk (removeNewlines
          (encodestring (⟨8, 9, [77, 97, 110]⟩ : RenderedPage).png_bytes)) ∧
    ∀ c ∈ (⟨8, 9, "data:image/png;base64,TWFu", [],
        [⟨"a", 1, 2, 3, 4⟩]⟩ : Page).data_url.data, c ≠ '\n' :=
  get_pages_data_url_base64 [.atomic ⟨none, some "a"⟩ ⟨1, 2, 3, 4⟩]
    [⟨8, 9, [77, 97, 110]⟩] 0
    ⟨8, 9, "data:image/png;base64,TWFu", [], [⟨"a", 1, 2, 3, 4⟩]⟩
    ⟨8, 9, [77, 97, 110]⟩ (by decide) (by decide)
